import Mathlib

/-!
# Verification of the xrb message-codec core

A shallow embedding of the code generated by the xrbk_macro crate of the
xrb repository (src/xrbk_macro/src/impls.rs and friends), together with
the hand-written CurrentableTime codec (src/src/common/wrapper.rs) and
the definition-time parser checks (src/xrbk_macro/src/element/parsing.rs).

The macro emits straight-line serialization and deserialization code per
message description; the embedding models a message description (items,
flags, opcodes) explicitly and gives the byte-level semantics of the
emitted code.  Byte buffers are lists of naturals below 256; the
bytes crate primitives put_u8 / put_u16 / put_u32 write big-endian, as
bytes::BufMut does.
-/

namespace Xrbk

/-- bytes::BufMut::put_u8: one byte, truncated to 8 bits. -/
def putU8 (n : Nat) : List Nat := [n % 256]

/-- bytes::BufMut::put_u16: two bytes, big-endian. -/
def putU16 (n : Nat) : List Nat := [n / 256 % 256, n % 256]

/-- bytes::BufMut::put_u32: four bytes, big-endian. -/
def putU32 (n : Nat) : List Nat :=
  [n / 16777216 % 256, n / 65536 % 256, n / 256 % 256, n % 256]

/-- bytes::Buf::get_u32 over a byte list: consumes four bytes, big-endian;
fails when fewer than four bytes remain. -/
def getU32 (input : List Nat) : Option (Nat × List Nat) :=
  match input with
  | a :: b :: c :: d :: rest => some (((a * 256 + b) * 256 + c) * 256 + d, rest)
  | _ => none

/-- The unused-bytes item kinds of the macro (xrbk_macro/src/content/items.rs):
a unit item (a single padding byte) or an array item whose byte count is the
value of its source expression, already evaluated here. -/
inductive Unused where
  | unit : Unused
  | array (count : Nat) : Unused
deriving DecidableEq, Repr

/-- ItemSerializeTokens for Unused (impls.rs lines 130-158): a unit item
emits writer.put_u8(0); an array item emits writer.put_many(0u8, count). -/
def Unused.serialize : Unused → List Nat
  | .unit => [0]
  | .array count => List.replicate count 0

/-- ItemDeserializeTokens for Unused (impls.rs lines 160-183): a unit item
emits reader.advance(1); an array item emits reader.advance(count). -/
def Unused.deserialize : Unused → List Nat → List Nat
  | .unit, input => input.drop 1
  | .array count, input => input.drop count

/-- The item kinds of a message description as consumed by impls.rs.  A
field or let item serializes by calling write_to on its value, producing
some list of bytes (the payload, abstract here because the field types are
arbitrary), and deserializes by calling read_from, consuming some number
of bytes (rlen, likewise type-driven). -/
inductive ItemKind where
  | field (payload : List Nat) (rlen : Nat) : ItemKind
  | letItem (payload : List Nat) (rlen : Nat) : ItemKind
  | unused (u : Unused) : ItemKind
deriving DecidableEq, Repr

/-- An item of a message description together with its metabyte flag
(whether the item was declared with the metabyte attribute). -/
structure Item where
  metabyte : Bool
  kind : ItemKind
deriving DecidableEq, Repr

/-- ItemSerializeTokens for Item (impls.rs lines 65-71, 105-116, 130-158,
185-195): the bytes the emitted serialization code appends for one item. -/
def itemSerialize : ItemKind → List Nat
  | .field payload _ => payload
  | .letItem payload _ => payload
  | .unused u => u.serialize

/-- ItemDeserializeTokens for Item (impls.rs lines 73-103, 118-128,
160-183, 197-207): the number of bytes the emitted deserialization code
consumes for one item. -/
def itemReadLen : ItemKind → Nat
  | .field _ rlen => rlen
  | .letItem _ rlen => rlen
  | .unused .unit => 1
  | .unused (.array count) => count

/-- Items::metabyte_serialize_tokens (content/items.rs lines 220-231):
serialize the first item flagged metabyte if there is one, otherwise emit
writer.put_u8(0). -/
def metabyteSerializeTokens (items : List Item) : List Nat :=
  match items.find? (fun it => it.metabyte) with
  | some it => itemSerialize it.kind
  | none => [0]

/-- Items::metabyte_deserialize_tokens (content/items.rs lines 233-244):
deserialize the first item flagged metabyte if there is one, otherwise
emit reader.advance(1).  Modelled as the number of bytes consumed. -/
def metabyteReadLen (items : List Item) : Nat :=
  match items.find? (fun it => it.metabyte) with
  | some it => itemReadLen it.kind
  | none => 1

/-- The non-metabyte items, in declaration order: the message serializers
of impls.rs iterate items.pairs().filter(not is_metabyte). -/
def nonMetabyte (items : List Item) : List Item :=
  items.filter (fun it => !it.metabyte)

/-- Serialization of the non-metabyte items of a message, in order. -/
def itemsSerialize (items : List Item) : List Nat :=
  ((nonMetabyte items).map (fun it => itemSerialize it.kind)).flatten

/-- Bytes consumed deserializing the non-metabyte items of a message. -/
def itemsReadLen (items : List Item) : Nat :=
  ((nonMetabyte items).map (fun it => itemReadLen it.kind)).sum

/-!
## Plain structs

BasicStructMetadata serialize_tokens / deserialize_tokens (impls.rs lines
396-479): a plain struct has no header; every item is serialized in
declaration order with no metabyte filtering.
-/

/-- Writable::write_to generated for a plain struct: all items in order. -/
def structWrite (items : List Item) : List Nat :=
  (items.map (fun it => itemSerialize it.kind)).flatten

/-- Bytes consumed by Readable::read_from generated for a plain struct. -/
def structReadLen (items : List Item) : Nat :=
  (items.map (fun it => itemReadLen it.kind)).sum

/-- Struct::impl_datasize (definition/expansion/datasize.rs lines 22-58):
datasize starts at 0 and adds the datasize of each element.

Modelled from the spec: the per-element datasize code
(Element::datasize_tokens) is not under src/; per the spec, data_size of
any value is the exact number of bytes its write operation produces, so a
leaf item's datasize is the length of its serialization. -/
def itemDataSize (k : ItemKind) : Nat := (itemSerialize k).length

/-- DataSize::data_size generated for a plain struct: sum of all element
datasizes, starting from 0. -/
def structDataSize (items : List Item) : Nat :=
  (items.map (fun it => itemDataSize it.kind)).sum

/-!
## Requests

Request::serialize_tokens (impls.rs lines 481-545) writes, in order: the
major opcode with put_u8; then, if a minor opcode is declared,
writer.put_u16(minor_opcode()) - two bytes - otherwise the metabyte item
slot; then the length with put_u16; then the non-metabyte items.
Request::deserialize_tokens (impls.rs lines 547-600) consumes the
metabyte slot only when no minor opcode is declared, then two bytes of
length with get_u16, then the non-metabyte items (the major opcode and a
declared minor opcode are consumed by the dispatcher before read_from).
-/

/-- A request description: major opcode expression value, optional minor
opcode expression value, items. -/
structure Request where
  major : Nat
  minor : Option Nat
  items : List Item
deriving DecidableEq, Repr

/-- Request::length of the generated trait impl (impls.rs lines 879-884):
the body is a literal 0 with a TODO to calculate the real length. -/
def Request.lengthField (_ : Request) : Nat := 0

/-- Request::minor_opcode of the generated trait impl (impls.rs lines
853-858, 875-877). -/
def Request.minorOpcode (r : Request) : Option Nat := r.minor

/-- Request::major_opcode of the generated trait impl (impls.rs lines
866-868), truncated with an as-u8 cast. -/
def Request.majorOpcode (r : Request) : Nat := r.major % 256

/-- Writable::write_to generated for a request (impls.rs lines 481-545). -/
def Request.write (r : Request) : List Nat :=
  putU8 r.major
    ++ (match r.minor with
        | some m => putU16 m
        | none => metabyteSerializeTokens r.items)
    ++ putU16 r.lengthField
    ++ itemsSerialize r.items

/-- Bytes consumed by Readable::read_from generated for a request
(impls.rs lines 547-600): the metabyte slot when no minor opcode is
declared, two bytes of length, then the non-metabyte items. -/
def Request.readLen (r : Request) : Nat :=
  (match r.minor with
   | some _ => 0
   | none => metabyteReadLen r.items)
    + 2 + itemsReadLen r.items

/-- Request::impl_datasize (datasize.rs lines 60-100): datasize starts at
4 to account for the request header being 4 bytes, then adds the datasize
of every element that is neither metabyte nor sequence (requests have no
sequence fields). -/
def Request.dataSize (r : Request) : Nat :=
  4 + ((nonMetabyte r.items).map (fun it => itemDataSize it.kind)).sum

/-!
## Replies

Reply::serialize_tokens (impls.rs lines 602-671) writes, in order: the
constant 1 with put_u8; the metabyte slot; the sequence with put_u16
unless the reply opted out of its sequence field (sequence_token
present); then the length with put_u16 (although the layout comment at
impls.rs lines 604-610 and the read side use a u32 length); then the
non-metabyte items.  Reply::deserialize_tokens (impls.rs lines 673-740)
consumes the metabyte slot, the two sequence bytes unless opted out, four
bytes of length with get_u32, then the non-metabyte items; it never
consumes the leading constant-1 byte.
-/

/-- A reply description: whether the sequence field was opted out of
(the sequence_token of the macro input is present), the sequence value
carried by the reply when not opted out, and the items. -/
structure Reply where
  optOutSequence : Bool
  seq : Nat
  items : List Item
deriving DecidableEq, Repr

/-- Reply::length of the generated trait impl (impls.rs lines 917-922):
the body is a literal 0 with a TODO to implement the length. -/
def Reply.lengthField (_ : Reply) : Nat := 0

/-- Reply::sequence of the generated trait impl (impls.rs lines 898-905,
911-915): Some of the stored sequence unless opted out, else None. -/
def Reply.sequence (r : Reply) : Option Nat :=
  if r.optOutSequence then none else some r.seq

/-- The bytes the generated reply serializer emits for the sequence slot
(impls.rs lines 629-638): put_u16 of the sequence unless opted out. -/
def Reply.seqSlotWrite (r : Reply) : List Nat :=
  if r.optOutSequence then [] else putU16 r.seq

/-- Writable::write_to generated for a reply (impls.rs lines 602-671). -/
def Reply.write (r : Reply) : List Nat :=
  putU8 1
    ++ metabyteSerializeTokens r.items
    ++ r.seqSlotWrite
    ++ putU16 r.lengthField
    ++ itemsSerialize r.items

/-- Bytes consumed by Readable::read_from generated for a reply
(impls.rs lines 673-740): the metabyte slot, two sequence bytes unless
opted out, four length bytes (get_u32), then the non-metabyte items. -/
def Reply.readLen (r : Reply) : Nat :=
  metabyteReadLen r.items
    + (if r.optOutSequence then 0 else 2)
    + 4 + itemsReadLen r.items

/-- Reply::impl_datasize (datasize.rs lines 102-142): datasize starts at
8 to account for the reply header being 8 bytes, then adds the datasize
of every element that is neither metabyte nor sequence. -/
def Reply.dataSize (r : Reply) : Nat :=
  8 + ((nonMetabyte r.items).map (fun it => itemDataSize it.kind)).sum

/-!
## Events

Event::serialize_tokens (impls.rs lines 742-792) writes the event code
with put_u8, the metabyte slot, the sequence with put_u16, then the
non-metabyte items; Event::deserialize_tokens (impls.rs lines 794-841)
consumes the metabyte slot, two sequence bytes, then the items.
-/

/-- An event description: event code expression value, sequence value,
items. -/
structure Event where
  code : Nat
  seq : Nat
  items : List Item
deriving DecidableEq, Repr

/-- Writable::write_to generated for an event (impls.rs lines 742-792). -/
def Event.write (e : Event) : List Nat :=
  putU8 e.code
    ++ metabyteSerializeTokens e.items
    ++ putU16 e.seq
    ++ itemsSerialize e.items

/-- Bytes consumed by Readable::read_from generated for an event
(impls.rs lines 794-841). -/
def Event.readLen (e : Event) : Nat :=
  metabyteReadLen e.items + 2 + itemsReadLen e.items

/-- Event::sequence of the generated trait impl (impls.rs lines 946-950). -/
def Event.sequence (e : Event) : Nat := e.seq

/-!
## Enums

Enum::serialize_tokens / deserialize_tokens (impls.rs lines 209-368).
The running discriminant tokens start at 0; a variant with an explicit
discriminant expression resets them to that expression; after each
variant the tokens gain a plus-one.  Deserialization reads one byte and
matches it against the arms in declaration order; an unmatched byte
returns ReadError::UnrecognizedDiscriminant carrying that byte.
-/

/-- An enum variant: its optional explicit discriminant expression value
and its items (variant items are serialized without metabyte filtering,
impls.rs lines 234-238 and 314-318). -/
structure Variant where
  discriminant : Option Nat
  items : List Item
deriving DecidableEq, Repr

/-- The resolved discriminant values of a variant list, given the running
value acc: an explicit discriminant resets the running value, otherwise
the previous value plus one is used, starting from 0. -/
def resolveDiscrims (acc : Nat) : List Variant → List Nat
  | [] => []
  | v :: rest =>
    v.discriminant.getD acc :: resolveDiscrims (v.discriminant.getD acc + 1) rest

/-- The generated match of Readable::read_from for an enum (impls.rs
lines 289-368), one arm per variant in declaration order: returns the
index and variant of the first arm whose resolved discriminant equals the
byte read. -/
def enumMatchGo (acc idx : Nat) (variants : List Variant) (b : Nat) :
    Option (Nat × Variant) :=
  match variants with
  | [] => none
  | v :: rest =>
    if b = v.discriminant.getD acc then some (idx, v)
    else enumMatchGo (v.discriminant.getD acc + 1) (idx + 1) rest b

/-- Bytes consumed deserializing all items of one variant (impls.rs lines
314-318: every item, no metabyte filter). -/
def variantItemsReadLen (v : Variant) : Nat :=
  (v.items.map (fun it => itemReadLen it.kind)).sum

/-- The read errors of the cornflakes contract used by the generated
code (spec section 7): end of input, or an unrecognized enum
discriminant byte. -/
inductive ReadError where
  | unexpectedEof : ReadError
  | unrecognizedDiscriminant (b : Nat) : ReadError
deriving DecidableEq, Repr

/-- Readable::read_from generated for an enum (impls.rs lines 339-366):
read one discriminant byte, dispatch against the arms in order; a
matching arm deserializes that variant's items and constructs the
variant (modelled as its index); an unmatched byte returns
UnrecognizedDiscriminant of the byte read. -/
def enumReadFrom (variants : List Variant) (input : List Nat) :
    Except ReadError (Nat × List Nat) :=
  match input with
  | [] => .error .unexpectedEof
  | b :: rest =>
    match enumMatchGo 0 0 variants b with
    | some (idx, v) => .ok (idx, rest.drop (variantItemsReadLen v))
    | none => .error (.unrecognizedDiscriminant b)

/-!
## Definition-time checks of the element parser

Elements::parse_with (element/parsing.rs lines 69-159).  The loop over
the elements rejects a second metabyte element and a second sequence
field as soon as they are parsed; after the loop, every source argument
of every let element that did not already receive a type during parsing
is looked up in the field map built from ALL parsed fields, and an
argument missing from that map is rejected as an unrecognized source
argument identifier.
-/

/-- A source argument of a let element: its identifier and whether the
source parser already attached a type to it during the element loop
(arg type is not none at the post-loop check, parsing.rs line 137). -/
structure SrcArg where
  ident : String
  resolved : Bool
deriving DecidableEq, Repr

/-- A parsed element, abstracting element/parsing.rs's Element: a field
(name, metabyte flag, sequence flag), a single unused byte (metabyte
flag), an array unused, or a let with its source arguments. -/
inductive ElemDesc where
  | field (name : String) (metabyte : Bool) (sequence : Bool) : ElemDesc
  | singleUnused (metabyte : Bool) : ElemDesc
  | arrayUnused : ElemDesc
  | letElem (metabyte : Bool) (args : List SrcArg) : ElemDesc
deriving DecidableEq, Repr

/-- Element::is_metabyte as used at parsing.rs line 96. -/
def ElemDesc.isMetabyte : ElemDesc → Bool
  | .field _ m _ => m
  | .singleUnused m => m
  | .arrayUnused => false
  | .letElem m _ => m

/-- Whether the element is a field with the sequence attribute
(parsing.rs line 107). -/
def ElemDesc.isSequenceField : ElemDesc → Bool
  | .field _ _ s => s
  | _ => false

/-- The element loop of Elements::parse_with (parsing.rs lines 88-131):
walks the elements in order carrying whether a metabyte element and a
sequence field have been seen, and errors on a second one. -/
def checkDuplicates (elems : List ElemDesc) (mbSeen seqSeen : Bool) :
    Except String Unit :=
  match elems with
  | [] => .ok ()
  | e :: rest =>
    if e.isMetabyte && mbSeen then
      .error "no more than one metabyte element is allowed per message"
    else if e.isSequenceField && seqSeen then
      .error "no more than one sequence field is allowed per message"
    else
      checkDuplicates rest (mbSeen || e.isMetabyte) (seqSeen || e.isSequenceField)

/-- The names of all fields of the element list, the field map the loop
has built once it finishes (parsing.rs: field_map, filled by
Field::parse_with at line 407). -/
def fieldNames (elems : List ElemDesc) : List String :=
  elems.filterMap (fun e =>
    match e with
    | .field name _ _ => some name
    | _ => none)

/-- The post-loop check of Elements::parse_with (parsing.rs lines
133-150): for every let element, every source argument that has no type
yet is looked up in the full field map; a missing identifier is an
error. -/
def checkLetArgs (elems : List ElemDesc) (fields : List String) :
    Except String Unit :=
  match elems with
  | [] => .ok ()
  | .letElem _ args :: rest =>
    if args.all (fun a => a.resolved || fields.contains a.ident) then
      checkLetArgs rest fields
    else
      .error "unrecognized source argument identifier"
  | _ :: rest => checkLetArgs rest fields

/-- Elements::parse_with (parsing.rs lines 69-159), reduced to its
definition-time checks: the in-loop duplicate checks, then the post-loop
source-argument check against the complete field map. -/
def parseElements (elems : List ElemDesc) : Except String Unit :=
  match checkDuplicates elems false false with
  | .error msg => .error msg
  | .ok () => checkLetArgs elems (fieldNames elems)

/-!
## CurrentableTime (src/src/common/wrapper.rs lines 40-82)

A hand-written codec: write_to emits put_u32(0) for CurrentTime and the
wrapped timestamp's four bytes for Timestamp; read_from reads a u32 and
maps 0 to CurrentTime and any other value x to Timestamp(x).
-/

/-- CurrentableTime (wrapper.rs lines 40-43); Timestamp wraps a u32. -/
inductive CurrentableTime where
  | currentTime : CurrentableTime
  | timestamp (t : Nat) : CurrentableTime
deriving DecidableEq, Repr

/-- Writable::write_to for CurrentableTime (wrapper.rs lines 61-70):
CurrentTime puts the u32 0; Timestamp writes its wrapped u32. -/
def CurrentableTime.writeTo : CurrentableTime → List Nat
  | .currentTime => putU32 0
  | .timestamp t => putU32 t

/-- Readable::read_from for CurrentableTime (wrapper.rs lines 72-82):
get_u32, then 0 maps to CurrentTime and any other value x to
Timestamp(x). -/
def CurrentableTime.readFrom (input : List Nat) :
    Option (CurrentableTime × List Nat) :=
  match getU32 input with
  | none => none
  | some (x, rest) =>
    some (if x = 0 then .currentTime else .timestamp x, rest)

/-!
## Helper lemmas
-/

/-- The length of a flattened serialization is the sum of datasizes. -/
theorem flatten_serialize_length (items : List Item) :
    ((items.map (fun it => itemSerialize it.kind)).flatten).length
      = (items.map (fun it => itemDataSize it.kind)).sum := by
  induction items with
  | nil => rfl
  | cons it rest ih =>
    simp only [List.map_cons, List.flatten_cons, List.length_append, ih,
      List.sum_cons, itemDataSize]

/-- A byte in no resolved discriminant finds no match arm. -/
theorem enumMatchGo_of_not_mem (vs : List Variant) :
    ∀ acc idx b, b ∉ resolveDiscrims acc vs → enumMatchGo acc idx vs b = none := by
  induction vs with
  | nil => intro acc idx b _; rfl
  | cons v rest ih =>
    intro acc idx b h
    simp only [resolveDiscrims, List.mem_cons, not_or] at h
    simp only [enumMatchGo, if_neg h.1]
    exact ih _ _ _ h.2

/-- A byte among the resolved discriminants matches some arm whose
resolved discriminant is that byte, returning that arm's variant. -/
theorem enumMatchGo_of_mem (vs : List Variant) :
    ∀ acc idx b, b ∈ resolveDiscrims acc vs →
      ∃ j v, enumMatchGo acc idx vs b = some (idx + j, v)
        ∧ (resolveDiscrims acc vs)[j]? = some b ∧ vs[j]? = some v := by
  induction vs with
  | nil => intro acc idx b h; simp [resolveDiscrims] at h
  | cons v rest ih =>
    intro acc idx b h
    by_cases hb : b = v.discriminant.getD acc
    · refine ⟨0, v, ?_, ?_, ?_⟩
      · simp [enumMatchGo, hb]
      · simp [resolveDiscrims, hb]
      · simp
    · have hmem : b ∈ resolveDiscrims (v.discriminant.getD acc + 1) rest := by
        rcases List.mem_cons.mp h with h0 | h1
        · exact absurd h0 hb
        · exact h1
      obtain ⟨j, w, hgo, hres, hget⟩ := ih (v.discriminant.getD acc + 1) (idx + 1) b hmem
      refine ⟨j + 1, w, ?_, ?_, ?_⟩
      · simp only [enumMatchGo, if_neg hb, hgo, Option.some.injEq, Prod.mk.injEq]
        exact ⟨by omega, trivial⟩
      · simpa [resolveDiscrims] using hres
      · simpa using hget

/-- Decoding a big-endian u32 after encoding recovers the value. -/
theorem getU32_putU32 (n : Nat) (rest : List Nat) (h : n < 4294967296) :
    getU32 (putU32 n ++ rest) = some (n, rest) := by
  simp only [putU32, getU32, List.cons_append, List.nil_append,
    Option.some.injEq, Prod.mk.injEq]
  exact ⟨by omega, trivial⟩

/-!
## The claims
-/

/-- C1: the reply header write/read pair is not width-mirrored.  The
claim states that write emits the constant 1, the metabyte slot, the
sequence (unless opted out) and a FOUR-byte u32 length, with read
consuming the same bytes.  In the code, Reply::serialize_tokens emits the
length with put_u16 (two bytes) while Reply::deserialize_tokens consumes
it with get_u32 (four bytes), and read also never consumes the leading
constant-1 byte: for a reply with a sequence and no items, write
produces 6 bytes while read consumes 7. -/
theorem c1_reply_length_width_bug :
    Reply.write ⟨false, 42, []⟩ = [1, 0, 0, 42, 0, 0]
    ∧ (Reply.write ⟨false, 42, []⟩).length = 6
    ∧ Reply.readLen ⟨false, 42, []⟩ = 7 := by
  refine ⟨?_, ?_, ?_⟩ <;> decide

/-- C2: the generated length() trait functions return the literal 0 (a
TODO in impls.rs lines 879-884 and 917-922), not the message size in
4-byte units derived from data_size(): a request with one 4-byte field
has data_size 8 but an emitted length field of 0 instead of 2. -/
theorem c2_length_field_returns_zero :
    (∀ r : Request, Request.lengthField r = 0)
    ∧ (∀ r : Reply, Reply.lengthField r = 0)
    ∧ Request.dataSize ⟨1, none, [⟨false, .field [9, 9, 9, 9] 4⟩]⟩ = 8
    ∧ Request.lengthField ⟨1, none, [⟨false, .field [9, 9, 9, 9] 4⟩]⟩
        ≠ Request.dataSize ⟨1, none, [⟨false, .field [9, 9, 9, 9] 4⟩]⟩ / 4 := by
  refine ⟨fun _ => rfl, fun _ => rfl, ?_, ?_⟩ <;> decide

/-- C3: a declared minor opcode is not written as one byte.
Request::serialize_tokens emits writer.put_u16(minor_opcode()) for it
(impls.rs lines 499-506), so the request with major opcode 5 and minor
opcode 3 serializes to a 5-byte header [5, 0, 3, 0, 0] instead of the
claimed 4-byte header with the minor opcode in the second byte.  The
second half of the claim holds: with no minor opcode the second byte is
the metabyte item or a zero byte. -/
theorem c3_minor_opcode_two_bytes :
    Request.write ⟨5, some 3, []⟩ = [5, 0, 3, 0, 0]
    ∧ (Request.write ⟨5, some 3, []⟩).length = 5
    ∧ Request.write ⟨5, none, []⟩ = [5, 0, 0, 0]
    ∧ Request.write ⟨5, none, [⟨true, .field [9] 1⟩]⟩ = [5, 9, 0, 0] := by
  refine ⟨?_, ?_, ?_, ?_⟩ <;> decide

/-- C4: enum decoding reads one discriminant byte and dispatches against
the variants' resolved discriminants (explicit literal, or previous
variant's discriminant plus one, starting at 0): a byte equal to some
resolved discriminant selects the first such variant, deserializes its
items and returns it, and a byte matching no variant returns the error
UnrecognizedDiscriminant carrying that byte, never panicking; in
particular for variants A=0, B, C=5, D the resolved discriminants are
0, 1, 5, 6, bytes 0, 1, 5, 6 decode to A, B, C, D, and byte 2 fails
with UnrecognizedDiscriminant(2). -/
theorem c4_enum_discriminant_dispatch :
    (∀ (vs : List Variant) (b : Nat) (rest : List Nat),
        b ∈ resolveDiscrims 0 vs →
        ∃ i v, (resolveDiscrims 0 vs)[i]? = some b ∧ vs[i]? = some v
          ∧ enumReadFrom vs (b :: rest) = .ok (i, rest.drop (variantItemsReadLen v)))
    ∧ (∀ (vs : List Variant) (b : Nat) (rest : List Nat),
        b ∉ resolveDiscrims 0 vs →
        enumReadFrom vs (b :: rest) = .error (.unrecognizedDiscriminant b))
    ∧ resolveDiscrims 0 [⟨some 0, []⟩, ⟨none, []⟩, ⟨some 5, []⟩, ⟨none, []⟩]
        = [0, 1, 5, 6]
    ∧ enumReadFrom [⟨some 0, []⟩, ⟨none, []⟩, ⟨some 5, []⟩, ⟨none, []⟩] [0]
        = .ok (0, [])
    ∧ enumReadFrom [⟨some 0, []⟩, ⟨none, []⟩, ⟨some 5, []⟩, ⟨none, []⟩] [1]
        = .ok (1, [])
    ∧ enumReadFrom [⟨some 0, []⟩, ⟨none, []⟩, ⟨some 5, []⟩, ⟨none, []⟩] [5]
        = .ok (2, [])
    ∧ enumReadFrom [⟨some 0, []⟩, ⟨none, []⟩, ⟨some 5, []⟩, ⟨none, []⟩] [6]
        = .ok (3, [])
    ∧ enumReadFrom [⟨some 0, []⟩, ⟨none, []⟩, ⟨some 5, []⟩, ⟨none, []⟩] [2]
        = .error (.unrecognizedDiscriminant 2) := by
  refine ⟨?_, ?_, by decide, rfl, rfl, rfl, rfl, rfl⟩
  · intro vs b rest hmem
    obtain ⟨j, v, hgo, hres, hget⟩ := enumMatchGo_of_mem vs 0 0 b hmem
    refine ⟨j, v, hres, hget, ?_⟩
    simp [enumReadFrom, hgo]
  · intro vs b rest hnot
    simp [enumReadFrom, enumMatchGo_of_not_mem vs 0 0 b hnot]

theorem c4_enum_discriminant_dispatch_witness :
    (∃ i v, (resolveDiscrims 0 [⟨some 4, ([] : List Item)⟩])[i]? = some 4
        ∧ ([(⟨some 4, []⟩ : Variant)])[i]? = some v
        ∧ enumReadFrom [⟨some 4, []⟩] [4]
            = .ok (i, List.drop (variantItemsReadLen v) []))
    ∧ enumReadFrom [(⟨some 4, ([] : List Item)⟩ : Variant)] [3]
        = .error (.unrecognizedDiscriminant 3) :=
  ⟨c4_enum_discriminant_dispatch.1 [⟨some 4, []⟩] 4 [] (by decide),
   c4_enum_discriminant_dispatch.2.1 [⟨some 4, []⟩] 3 [] (by decide)⟩

/-- C5 counterexample: the code does not itself bound the metabyte slot
to one byte - a message whose metabyte item is a field serializing to
two bytes makes the generated encoder write two bytes into the slot.
The claim that encoding always writes exactly one byte there is false. -/
theorem c5_metabyte_one_byte_cex :
    (metabyteSerializeTokens [⟨true, .field [7, 8] 2⟩]).length ≠ 1 := by decide

/-- C5 amended: when no metabyte item is declared, encoding writes
exactly one zero byte into the metabyte slot and decoding skips exactly
one byte; when a metabyte item is declared, its own serialization is
written into the slot and its own deserialization consumed from it
(exactly one byte precisely when that item's serialization is one
byte). -/
theorem c5_metabyte_slot :
    (∀ items : List Item, items.find? (fun it => it.metabyte) = none →
        metabyteSerializeTokens items = [0] ∧ metabyteReadLen items = 1)
    ∧ (∀ (items : List Item) (it : Item),
        items.find? (fun it => it.metabyte) = some it →
        metabyteSerializeTokens items = itemSerialize it.kind
        ∧ metabyteReadLen items = itemReadLen it.kind)
    ∧ Reply.write ⟨true, 0, []⟩ = [1, 0, 0, 0]
    ∧ Event.write ⟨3, 9, [⟨true, .field [8] 1⟩]⟩ = [3, 8, 0, 9]
    ∧ Event.readLen ⟨3, 9, []⟩ = 3 := by
  refine ⟨?_, ?_, by decide, by decide, by decide⟩
  · intro items h
    exact ⟨by simp [metabyteSerializeTokens, h], by simp [metabyteReadLen, h]⟩
  · intro items it h
    exact ⟨by simp [metabyteSerializeTokens, h], by simp [metabyteReadLen, h]⟩

theorem c5_metabyte_slot_witness :
    (metabyteSerializeTokens ([] : List Item) = [0] ∧ metabyteReadLen [] = 1)
    ∧ (metabyteSerializeTokens [⟨true, .field [8] 1⟩]
          = itemSerialize (.field [8] 1)
        ∧ metabyteReadLen [⟨true, .field [8] 1⟩] = itemReadLen (.field [8] 1)) :=
  ⟨c5_metabyte_slot.1 [] rfl,
   c5_metabyte_slot.2.1 [⟨true, .field [8] 1⟩] ⟨true, .field [8] 1⟩ rfl⟩

/-- C6 counterexample: the bytes write produces are NOT data_size(v)
plus the fixed header bytes - the generated data_size already includes
the header (Request::impl_datasize starts the count at 4, with a comment
saying it accounts for the 4-byte request header): a request with no
items writes 4 bytes while data_size(v) + 4 = 8. -/
theorem c6_write_size_cex :
    ¬ ((Request.write ⟨5, none, []⟩).length
        = Request.dataSize ⟨5, none, []⟩ + 4) := by decide

/-- C6 amended: data_size includes the header contribution for
Request/Reply (the count starts at the header size 4 resp. 8) rather
than write adding it on top: a plain struct writes exactly
data_size(v) bytes, and a request without a minor opcode whose metabyte
slot is one byte writes exactly data_size(v) bytes, not data_size(v)
plus 4; a reply (with its sequence present and a one-byte metabyte
slot) currently writes data_size(v) minus 2 bytes because its length
field is emitted as a u16 (the C1 defect). -/
theorem c6_write_size :
    (∀ items : List Item, (structWrite items).length = structDataSize items)
    ∧ (∀ r : Request, r.minor = none →
        (metabyteSerializeTokens r.items).length = 1 →
        (Request.write r).length = Request.dataSize r)
    ∧ (∀ r : Reply, r.optOutSequence = false →
        (metabyteSerializeTokens r.items).length = 1 →
        (Reply.write r).length + 2 = Reply.dataSize r) := by
  refine ⟨?_, ?_, ?_⟩
  · intro items
    simpa [structWrite, structDataSize] using flatten_serialize_length items
  · intro r hm hmb
    have hlen := flatten_serialize_length (nonMetabyte r.items)
    simp only [Request.write, hm, List.length_append, putU8, putU16,
      List.length_cons, List.length_nil, hmb, itemsSerialize, hlen,
      Request.dataSize]
  · intro r hs hmb
    have hlen := flatten_serialize_length (nonMetabyte r.items)
    simp [Reply.write, Reply.seqSlotWrite, hs, putU8, putU16, hmb,
      itemsSerialize, hlen, Reply.dataSize]
    omega

theorem c6_write_size_witness :
    (Request.write ⟨5, none, ([] : List Item)⟩).length
        = Request.dataSize ⟨5, none, []⟩
    ∧ (Reply.write ⟨false, 42, ([] : List Item)⟩).length + 2
        = Reply.dataSize ⟨false, 42, []⟩ :=
  ⟨c6_write_size.2.1 ⟨5, none, []⟩ rfl (by decide),
   c6_write_size.2.2 ⟨false, 42, []⟩ rfl (by decide)⟩

/-- C7: a reply declared without a sequence field (opted out) writes no
bytes for the sequence slot, reads none, and its sequence() accessor
returns None; a reply declared with one always writes the two-byte
sequence slot, always reads it, and sequence() returns Some of the
stored value. -/
theorem c7_sequence_opt_out :
    ∀ r : Reply,
      (r.optOutSequence = true →
        Reply.seqSlotWrite r = []
        ∧ Reply.write r = putU8 1 ++ metabyteSerializeTokens r.items
            ++ putU16 (Reply.lengthField r) ++ itemsSerialize r.items
        ∧ Reply.readLen r = metabyteReadLen r.items + 4 + itemsReadLen r.items
        ∧ Reply.sequence r = none)
      ∧ (r.optOutSequence = false →
        Reply.seqSlotWrite r = putU16 r.seq
        ∧ (Reply.seqSlotWrite r).length = 2
        ∧ Reply.write r = putU8 1 ++ metabyteSerializeTokens r.items
            ++ putU16 r.seq ++ putU16 (Reply.lengthField r)
            ++ itemsSerialize r.items
        ∧ Reply.readLen r = metabyteReadLen r.items + 2 + 4 + itemsReadLen r.items
        ∧ Reply.sequence r = some r.seq) := by
  intro r
  constructor
  · intro h
    refine ⟨?_, ?_, ?_, ?_⟩ <;>
      simp [Reply.seqSlotWrite, Reply.write, Reply.readLen, Reply.sequence, h]
  · intro h
    refine ⟨?_, ?_, ?_, ?_, ?_⟩ <;>
      simp [Reply.seqSlotWrite, Reply.write, Reply.readLen, Reply.sequence, h,
        putU16]

theorem c7_sequence_opt_out_witness :
    Reply.sequence ⟨true, 0, []⟩ = none
    ∧ Reply.sequence ⟨false, 42, []⟩ = some 42
    ∧ Reply.readLen ⟨true, 0, []⟩ = metabyteReadLen [] + 4 + itemsReadLen []
    ∧ (Reply.seqSlotWrite ⟨false, 42, []⟩).length = 2 :=
  ⟨((c7_sequence_opt_out ⟨true, 0, []⟩).1 rfl).2.2.2,
   ((c7_sequence_opt_out ⟨false, 42, []⟩).2 rfl).2.2.2.2,
   ((c7_sequence_opt_out ⟨true, 0, []⟩).1 rfl).2.2.1,
   ((c7_sequence_opt_out ⟨false, 42, []⟩).2 rfl).2.1⟩

/-- C8: a unit Unused item always occupies exactly one byte - write
emits a single zero byte and read advances the cursor one byte without
inspecting its contents; an array Unused item's computed count
determines its bytes - write emits that many zero bytes and read skips
exactly that many bytes without interpreting them. -/
theorem c8_unused_bytes :
    Unused.serialize .unit = [0]
    ∧ (∀ b rest, Unused.deserialize .unit (b :: rest) = rest)
    ∧ (∀ input, Unused.deserialize .unit input = input.drop 1)
    ∧ (∀ count, Unused.serialize (.array count) = List.replicate count 0
        ∧ (Unused.serialize (.array count)).length = count)
    ∧ (∀ count input, Unused.deserialize (.array count) input = input.drop count) := by
  refine ⟨rfl, fun b rest => rfl, fun input => rfl,
    fun count => ⟨rfl, by simp [Unused.serialize]⟩, fun count input => rfl⟩

/-- The element loop only succeeds when at most one metabyte element and
at most one sequence field occur, counting any already seen. -/
theorem checkDuplicates_ok_counts (elems : List ElemDesc) :
    ∀ mbSeen seqSeen, checkDuplicates elems mbSeen seqSeen = .ok () →
      (elems.filter ElemDesc.isMetabyte).length + (if mbSeen then 1 else 0) ≤ 1
      ∧ (elems.filter ElemDesc.isSequenceField).length
          + (if seqSeen then 1 else 0) ≤ 1 := by
  induction elems with
  | nil => intro mb sq _; cases mb <;> cases sq <;> simp
  | cons e rest ih =>
    intro mb sq h
    simp only [checkDuplicates] at h
    by_cases h1 : (e.isMetabyte && mb) = true
    · rw [if_pos h1] at h; exact absurd h (by simp)
    · rw [if_neg h1] at h
      by_cases h2 : (e.isSequenceField && sq) = true
      · rw [if_pos h2] at h; exact absurd h (by simp)
      · rw [if_neg h2] at h
        have hih := ih (mb || e.isMetabyte) (sq || e.isSequenceField) h
        simp only [Bool.and_eq_true, not_and] at h1 h2
        constructor
        · have := hih.1
          cases hmb : e.isMetabyte <;> cases hms : mb <;>
            simp_all [List.filter_cons]
        · have := hih.2
          cases hsq : e.isSequenceField <;> cases hss : sq <;>
            simp_all [List.filter_cons]

/-- The post-loop check errors whenever some let element has an
unresolved source argument whose identifier the field map lacks. -/
theorem checkLetArgs_error (fields : List String) :
    ∀ (elems : List ElemDesc) (mb : Bool) (args : List SrcArg) (a : SrcArg),
      ElemDesc.letElem mb args ∈ elems → a ∈ args → a.resolved = false →
      fields.contains a.ident = false →
      checkLetArgs elems fields = .error "unrecognized source argument identifier" := by
  intro elems
  induction elems with
  | nil => intro mb args a h; simp at h
  | cons e rest ih =>
    intro mb args a hmem ha hres hcont
    rcases List.mem_cons.mp hmem with heq | hrest
    · subst heq
      simp only [checkLetArgs]
      have hall : args.all (fun x => x.resolved || fields.contains x.ident) = false := by
        rw [Bool.eq_false_iff]
        intro hall
        have := List.all_eq_true.mp hall a ha
        simp only [hres, Bool.false_or] at this
        rw [this] at hcont
        simp at hcont
      rw [if_neg (by rw [hall]; exact Bool.false_ne_true)]
    · cases e with
      | letElem mb2 args2 =>
        simp only [checkLetArgs]
        by_cases hall : args2.all (fun x => x.resolved || fields.contains x.ident) = true
        · rw [if_pos hall]
          exact ih mb args a hrest ha hres hcont
        · rw [if_neg hall]
      | field name m s => exact ih mb args a hrest ha hres hcont
      | singleUnused m => exact ih mb args a hrest ha hres hcont
      | arrayUnused => exact ih mb args a hrest ha hres hcont

/-- C9 counterexample: the source-argument check of Elements::parse_with
runs after the whole element list is parsed, against the field map of
ALL fields, so a let element whose source argument names a field
declared AFTER it parses without error - the claim that a source
argument may only name items declared before it in encoding order is
false on this code. -/
theorem c9_forward_reference_cex :
    parseElements [.letElem false [⟨"x", false⟩], .field "x" false false]
      = .ok () := rfl

/-- C9 amended: a message declaring more than one metabyte element or
more than one sequence field fails with a definition-time error, and a
Let source argument (not already resolved while parsing) naming an
identifier not declared as a field anywhere in the message fails with a
definition-time error; but the field lookup happens after the whole
element list is parsed, against the complete field map, so a source
argument may name a field declared after it - forward references to
fields are not rejected. -/
theorem c9_definition_time_errors :
    (∀ elems : List ElemDesc, parseElements elems = .ok () →
        (elems.filter ElemDesc.isMetabyte).length ≤ 1
        ∧ (elems.filter ElemDesc.isSequenceField).length ≤ 1)
    ∧ (∀ (elems : List ElemDesc) (mb : Bool) (args : List SrcArg) (a : SrcArg),
        ElemDesc.letElem mb args ∈ elems → a ∈ args → a.resolved = false →
        (fieldNames elems).contains a.ident = false →
        ∃ msg, parseElements elems = .error msg)
    ∧ parseElements [.field "m" true false, .singleUnused true]
        = .error "no more than one metabyte element is allowed per message"
    ∧ parseElements [.field "a" false true, .field "b" false true]
        = .error "no more than one sequence field is allowed per message"
    ∧ parseElements [.letElem false [⟨"y", false⟩]]
        = .error "unrecognized source argument identifier" := by
  refine ⟨?_, ?_, rfl, rfl, rfl⟩
  · intro elems h
    unfold parseElements at h
    cases hd : checkDuplicates elems false false with
    | error msg => rw [hd] at h; exact absurd h (by simp)
    | ok u =>
      cases u
      have := checkDuplicates_ok_counts elems false false hd
      simpa using this
  · intro elems mb args a hmem ha hres hcont
    unfold parseElements
    cases hd : checkDuplicates elems false false with
    | error msg => exact ⟨msg, rfl⟩
    | ok u =>
      cases u
      exact ⟨_, checkLetArgs_error (fieldNames elems) elems mb args a hmem ha hres hcont⟩

theorem c9_definition_time_errors_witness :
    (([ElemDesc.field "a" false false].filter ElemDesc.isMetabyte).length ≤ 1
      ∧ ([ElemDesc.field "a" false false].filter ElemDesc.isSequenceField).length ≤ 1)
    ∧ ∃ msg, parseElements [ElemDesc.letElem false [⟨"y", false⟩]] = .error msg :=
  ⟨c9_definition_time_errors.1 [ElemDesc.field "a" false false] rfl,
   c9_definition_time_errors.2.1 [ElemDesc.letElem false [⟨"y", false⟩]]
     false [⟨"y", false⟩] ⟨"y", false⟩ (by simp) (by simp) rfl rfl⟩

/-- C10: CurrentableTime::read_from returns CurrentTime exactly when the
four bytes it consumes encode the integer 0, and Timestamp(x) for every
nonzero x; consequently read_from recovers write_to's output for every
value except Timestamp(0), whose write_to encodes the integer 0 and
which therefore decodes as CurrentTime. -/
theorem c10_currentable_time :
    (∀ (input : List Nat) (x : Nat) (rest : List Nat),
        getU32 input = some (x, rest) →
        (CurrentableTime.readFrom input = some (.currentTime, rest) ↔ x = 0)
        ∧ (x ≠ 0 → CurrentableTime.readFrom input = some (.timestamp x, rest)))
    ∧ (∀ rest : List Nat,
        CurrentableTime.readFrom (CurrentableTime.currentTime.writeTo ++ rest)
          = some (.currentTime, rest))
    ∧ (∀ (t : Nat) (rest : List Nat), t < 4294967296 → t ≠ 0 →
        CurrentableTime.readFrom ((CurrentableTime.timestamp t).writeTo ++ rest)
          = some (.timestamp t, rest))
    ∧ CurrentableTime.readFrom ((CurrentableTime.timestamp 0).writeTo)
        = some (.currentTime, []) := by
  refine ⟨?_, ?_, ?_, rfl⟩
  · intro input x rest h
    constructor
    · simp only [CurrentableTime.readFrom, h]
      by_cases hx : x = 0 <;> simp [hx]
    · intro hx
      simp [CurrentableTime.readFrom, h, hx]
  · intro rest
    have h := getU32_putU32 0 rest (by norm_num)
    simp [CurrentableTime.readFrom, CurrentableTime.writeTo, h]
  · intro t rest ht h0
    have h := getU32_putU32 t rest ht
    simp [CurrentableTime.readFrom, CurrentableTime.writeTo, h, h0]

theorem c10_currentable_time_witness :
    CurrentableTime.readFrom ((CurrentableTime.timestamp 77).writeTo ++ [9])
      = some (.timestamp 77, [9])
    ∧ CurrentableTime.readFrom [0, 0, 0, 42] = some (.timestamp 42, []) :=
  ⟨c10_currentable_time.2.2.1 77 [9] (by norm_num) (by norm_num),
   (c10_currentable_time.1 [0, 0, 0, 42] 42 [] rfl).2 (by norm_num)⟩

end Xrbk
